import Mathlib

/-!
Shallow embedding of the `Graph` class of KeckCAVES/mycelia (`src/graph.cpp`).

Modelling conventions:
* `std::map` / `std::tr1::unordered_map` are modelled as partial functions
  `Int → Option α`; `operator[]` reads are `Map.getD`, `operator[]`
  default-inserts are materialised explicitly where the source performs them.
* `std::set<int>` is modelled as `Finset Int` (`size()` is `Finset.card`).
* The mutex, the `Mycelia* application` collaborator and the rendering signal
  `Vrui::requestUpdate()` are outside the state; `update()` is modelled as its
  remaining effect, `version++`.
* Display-only attributes (3D position, velocity, material, size, colour,
  labels, weight) are not read by any property below and are omitted from the
  records; the structural fields (degrees, component id, adjacency index,
  edge endpoints) are kept.
* Mutators are modelled in state-passing style: a function returns its C++
  return value paired with the successor state, or just the successor state
  for `void` members.
-/

set_option linter.unusedVariables false

namespace Mycelia

/-- Associative container keyed by `int`, as used for `nodeMap`, `edgeMap`
and the per-node adjacency index. -/
abbrev Map (α : Type) : Type := Int → Option α

def Map.empty {α : Type} : Map α := fun _ => none

def Map.set {α : Type} (m : Map α) (k : Int) (v : α) : Map α :=
  fun x => if x = k then some v else m x

def Map.eraseKey {α : Type} (m : Map α) (k : Int) : Map α :=
  fun x => if x = k then none else m x

/-- Models `m.find(k) != m.end()`. -/
def Map.containsKey {α : Type} (m : Map α) (k : Int) : Bool := (m k).isSome

/-- Models an `operator[]` read of a key known (or assumed) to be present; `d` is the
value a default-constructed entry would hold. -/
def Map.getD {α : Type} (m : Map α) (k : Int) (d : α) : α := (m k).getD d

/-- Modelled from the spec (the record layout lives in `graph.hpp`, which is
not part of the sources): an edge record holds its source and target node
ids. The display attributes (label, weight) are unused by every claim and
omitted. A default-constructed record is modelled with both endpoints 0. -/
structure Edge where
  source : Int
  target : Int
deriving DecidableEq

/-- Modelled from the spec (record layout in the missing `graph.hpp`): a node
record carries in-degree and out-degree counters, the connected-component id, and the
adjacency index mapping a neighbour node id to the ordered list of parallel
edge ids towards that neighbour. Degree counters of a fresh node are 0 and
its adjacency index is empty, per the spec's degree invariant for a node
with no incident edges. Display attributes are omitted. -/
structure Node where
  inDegree : Int := 0
  outDegree : Int := 0
  component : Int := 0
  adjacent : Map (List Int) := Map.empty

/-- The graph state: version counter, next-id counters, live sets and id→record
maps, exactly the fields of class `Graph` that the claims touch. -/
structure Graph where
  version : Int
  nodeId : Int
  edgeId : Int
  nodes : Finset Int
  nodeMap : Map Node
  edges : Finset Int
  edgeMap : Map Edge

/-- Models `Graph::Graph`: the counters start at the sentinel -1; the containers are
default-constructed empty. -/
def Graph.init : Graph :=
  { version := -1, nodeId := -1, edgeId := -1,
    nodes := ∅, nodeMap := Map.empty, edges := ∅, edgeMap := Map.empty }

def Graph.getVersion (g : Graph) : Int := g.version

def Graph.getNodeCount (g : Graph) : Nat := g.nodes.card

def Graph.getEdgeCount (g : Graph) : Nat := g.edges.card

/-- Models `Graph::isValidNode`: membership test on `nodeMap` (via `find`, no
insertion). -/
def Graph.isValidNode (g : Graph) (node : Int) : Bool :=
  Map.containsKey g.nodeMap node

/-- Models `Graph::isValidEdge`: membership test on `edgeMap`. -/
def Graph.isValidEdge (g : Graph) (edge : Int) : Bool :=
  Map.containsKey g.edgeMap edge

/-- Models `Graph::update`: `version++` (the redraw request is external). -/
def Graph.update (g : Graph) : Graph := { g with version := g.version + 1 }

/-- Models `Graph::clear`: empties all four containers and resets the three counters
to the sentinel -1 (`clearSelections` is external). -/
def Graph.clear (g : Graph) : Graph :=
  { g with nodes := ∅, nodeMap := Map.empty,
           edges := ∅, edgeMap := Map.empty,
           version := -1, nodeId := -1, edgeId := -1 }

/-- Models `Graph::operator=`: copies `version` and the four containers from `g`;
the `nodeId` and `edgeId` counters of the assigned-to object are left as they
were (the source never touches them). -/
def Graph.assign (dst : Graph) (g : Graph) : Graph :=
  { dst with version := g.version,
             nodes := g.nodes, nodeMap := g.nodeMap,
             edges := g.edges, edgeMap := g.edgeMap }

/-- Models `Graph::addNode()`: allocates `++nodeId`, inserts it into the live set and
the map with a fresh record (the randomised position is a display attribute),
then `update()`. Returns the new id. -/
def Graph.addNode (g : Graph) : Int × Graph :=
  let nid := g.nodeId + 1
  let g1 : Graph :=
    { g with nodeId := nid,
             nodes := insert nid g.nodes,
             nodeMap := Map.set g.nodeMap nid {} }
  (nid, g1.update)

/-- Models `Graph::addEdge(source, target)`: rejects invalid endpoints with -1 and no
state change; otherwise allocates `++edgeId`, records the edge, increments the
source's out-degree and the target's in-degree, appends the id to the source's
adjacency bucket for the target (`operator[]` creates the bucket if absent),
and bumps the version. The four container updates are sequential, so a
self-loop (`source = target`) increments both counters on the same record. -/
def Graph.addEdge (g : Graph) (source target : Int) : Int × Graph :=
  if !g.isValidNode source || !g.isValidNode target then (-1, g)
  else
    let eid := g.edgeId + 1
    let g1 : Graph :=
      { g with edgeId := eid,
               edges := insert eid g.edges,
               edgeMap := Map.set g.edgeMap eid ⟨source, target⟩ }
    let ns := Map.getD g1.nodeMap source {}
    let g2 : Graph :=
      { g1 with nodeMap := Map.set g1.nodeMap source
                  { ns with outDegree := ns.outDegree + 1 } }
    let nt := Map.getD g2.nodeMap target {}
    let g3 : Graph :=
      { g2 with nodeMap := Map.set g2.nodeMap target
                  { nt with inDegree := nt.inDegree + 1 } }
    let ns2 := Map.getD g3.nodeMap source {}
    let bucket := Map.getD ns2.adjacent target []
    let g4 : Graph :=
      { g3 with nodeMap := Map.set g3.nodeMap source
                  { ns2 with adjacent := Map.set ns2.adjacent target (bucket ++ [eid]) } }
    (eid, g4.update)

/-- Models `Graph::deleteEdge(edge)`: rejects an unknown id with -1; otherwise removes
the first occurrence of `edge` from the source node's adjacency bucket for the
target (the bucket itself — possibly now empty — stays in the adjacency map,
and the `operator[]` chain materialises it if it was absent), erases the edge
from the live set and the map, and bumps the version. -/
def Graph.deleteEdge (g : Graph) (edge : Int) : Int × Graph :=
  if !g.isValidEdge edge then (-1, g)
  else
    let e := Map.getD g.edgeMap edge ⟨0, 0⟩
    let src := Map.getD g.nodeMap e.source {}
    let neighbors := Map.getD src.adjacent e.target []
    let g1 : Graph :=
      { g with nodeMap := Map.set g.nodeMap e.source
                 { src with adjacent := Map.set src.adjacent e.target (neighbors.erase edge) } }
    let g2 : Graph :=
      { g1 with edges := g1.edges.erase edge,
                edgeMap := Map.eraseKey g1.edgeMap edge }
    (edge, g2.update)

/-- Models `Graph::clearEdges`: clears every live node's adjacency index and both edge
containers, then bumps the version. Degree counters are left untouched. -/
def Graph.clearEdges (g : Graph) : Graph :=
  let nm : Map Node := fun k =>
    if k ∈ g.nodes then some { Map.getD g.nodeMap k {} with adjacent := Map.empty }
    else g.nodeMap k
  Graph.update { g with nodeMap := nm, edges := ∅, edgeMap := Map.empty }

/-- Models `Graph::deleteNode(node)`: rejects an unknown id with -1; otherwise collects
every edge whose source or target is `node` into a kill list, erases those
edges from the live set and the map, erases the node, and bumps the version.
Adjacency buckets of other nodes and degree counters are not touched. -/
def Graph.deleteNode (g : Graph) (node : Int) : Int × Graph :=
  if !g.isValidNode node then (-1, g)
  else
    let killList := g.edges.filter (fun edge =>
      let e := Map.getD g.edgeMap edge ⟨0, 0⟩
      e.source = node ∨ e.target = node)
    let g1 : Graph :=
      { g with edges := g.edges \ killList,
               edgeMap := fun k => if k ∈ killList then none else g.edgeMap k }
    let g2 : Graph :=
      { g1 with nodes := g1.nodes.erase node,
                nodeMap := Map.eraseKey g1.nodeMap node }
    (node, g2.update)

/-- Models `Graph::getEdges(source, target)`: returns
`nodeMap[source].adjacent[target]`. Both subscripts are `operator[]`, so a
missing node record and a missing bucket are default-inserted — the call is
not a pure read. -/
def Graph.getEdges (g : Graph) (source target : Int) : List Int × Graph :=
  let n := Map.getD g.nodeMap source {}
  let bucket := Map.getD n.adjacent target []
  (bucket,
   { g with nodeMap := Map.set g.nodeMap source
              { n with adjacent := Map.set n.adjacent target bucket } })

/-- Models `Graph::hasEdge(source, target)`: tests whether `source`'s adjacency index
has a bucket KEYED by `target` (`find`, which does not look at the bucket's
contents); the `nodeMap[source]` subscript default-inserts a missing node
record. -/
def Graph.hasEdge (g : Graph) (source target : Int) : Bool × Graph :=
  let n := Map.getD g.nodeMap source {}
  (Map.containsKey n.adjacent target,
   { g with nodeMap := Map.set g.nodeMap source n })

/-- Models `Graph::getDegree`: sum of the stored counters. -/
def Graph.getDegree (g : Graph) (node : Int) : Int :=
  (Map.getD g.nodeMap node {}).inDegree + (Map.getD g.nodeMap node {}).outDegree

/-! ### The boost adapter -/

/-- The external algorithms representation (`boost::BoostGraph`,
an adjacency list over dense 0-based vertex indices). -/
structure BoostGraph where
  numVertices : Nat
  edgeList : List (Nat × Nat)
deriving DecidableEq

/-- Models `boost::add_vertex`. -/
def boostAddVertex (bg : BoostGraph) : BoostGraph :=
  { bg with numVertices := bg.numVertices + 1 }

/-- Models `boost::add_edge(u, v, g)` on a `vecS` adjacency list: grows the vertex set
to cover the larger endpoint if needed, then appends the edge. -/
def boostAddEdge (u v : Nat) (bg : BoostGraph) : BoostGraph :=
  { numVertices := max bg.numVertices (max u v + 1),
    edgeList := bg.edgeList ++ [(u, v)] }

/-- Models `Graph::toBoost`:

* the vertex loop is `for(int node = 0; node > getNodeCount(); node++)
  boost::add_vertex(g);` — the guard is tested with `node = 0` before any
  iteration, and `getNodeCount() = (int)nodes.size()` is nonnegative, so the
  guard is false and the loop body never runs (the comparison is inverted
  relative to the `node < getNodeCount()` the adapter's description implies);
  the local boost graph therefore keeps 0 vertices from this loop;
* the edge loop iterates dense positions `edge = 0 .. getEdgeCount()-1` and
  reads `edgeMap[edge]`, assuming edge ids are exactly that range (the
  `operator[]` would default-insert for a missing id; the returned value is
  then the default record, which is what the adapter passes on). -/
def Graph.toBoost (g : Graph) : BoostGraph :=
  let bg : BoostGraph := { numVertices := 0, edgeList := [] }
  (List.range g.getEdgeCount).foldl
    (fun b edge =>
      boostAddEdge (Map.getD g.edgeMap (Int.ofNat edge) ⟨0, 0⟩).source.toNat
                   (Map.getD g.edgeMap (Int.ofNat edge) ⟨0, 0⟩).target.toNat b)
    bg

/-! ### Analytics

Each analytics member is parameterised by the external library primitive it
invokes (`brandes_betweenness_centrality`, `dijkstra_shortest_paths`,
`prim_minimum_spanning_tree`, `connected_components`), and is modelled in an
instrumented style: alongside its C++ result it returns a `Bool` recording
whether the primitive was invoked, transcribing the source's control flow
(`getBetweennessCentrality`, `getShortestPath` and `getSpanningTree` return
their zero-initialised result vector early when `getNodeCount() == 0`;
`setComponents` has no such guard). -/

/-- Models `Graph::getBetweennessCentrality`. -/
def Graph.getBetweennessCentrality (brandes : BoostGraph → List Rat)
    (g : Graph) : List Rat × Bool :=
  let bg := g.toBoost
  let bc : List Rat := List.replicate g.getNodeCount 0
  if g.getNodeCount = 0 then (bc, false)
  else (brandes bg, true)

/-- Models `Graph::getShortestPath`; `prev` is `application->getPreviousNode()`. -/
def Graph.getShortestPath (dijkstra : BoostGraph → Int → List Int)
    (prev : Int) (g : Graph) : List Int × Bool :=
  let bg := g.toBoost
  let p : List Int := List.replicate g.getNodeCount 0
  if g.getNodeCount = 0 then (p, false)
  else (dijkstra bg prev, true)

/-- Models `Graph::getSpanningTree`. -/
def Graph.getSpanningTree (prim : BoostGraph → List Int)
    (g : Graph) : List Int × Bool :=
  let bg := g.toBoost
  let p : List Int := List.replicate g.getNodeCount 0
  if g.getNodeCount = 0 then (p, false)
  else (prim bg, true)

/-- Models `Graph::setComponents`: runs `connected_components` on the adapted graph
unconditionally (there is no empty-graph guard), then writes `c[node]` into
each live node's `component` field (`vector` indexing by node id — yet another
id-as-dense-index assumption; out-of-range reads are modelled by the default
0). -/
def Graph.setComponents (cc : BoostGraph → List Int) (g : Graph) : Graph × Bool :=
  let bg := g.toBoost
  let c := cc bg
  let nm : Map Node := fun k =>
    if k ∈ g.nodes then
      some { Map.getD g.nodeMap k {} with component := c.getD k.toNat 0 }
    else g.nodeMap k
  ({ g with nodeMap := nm }, true)

/-! ### Concrete scenario states shared by several properties -/

/-- Fresh graph after two `addNode()` calls: live nodes 0 and 1, no edges. -/
def demoTwoNodes : Graph := (Graph.addNode (Graph.addNode Graph.init).2).2

/-- State `demoTwoNodes` after `addEdge(0, 1)`: the single live edge has id 0. -/
def demoOneEdge : Graph := (Graph.addEdge demoTwoNodes 0 1).2

/-- State `demoOneEdge` after `deleteEdge(0)`: no live edges remain. -/
def demoDeleted : Graph := (Graph.deleteEdge demoOneEdge 0).2

/-! ### Invariants used by the degree-counter property -/

/-- Statement that the stored degree counters of every live node agree with the
live edge store: in-degree equals the number of live edges targeting the node,
out-degree the number of live edges sourced at it. -/
def degreeInvariant (g : Graph) : Prop :=
  ∀ n ∈ g.nodes,
    (Map.getD g.nodeMap n {}).inDegree =
      ((g.edges.filter (fun e => (Map.getD g.edgeMap e ⟨0, 0⟩).target = n)).card : Int) ∧
    (Map.getD g.nodeMap n {}).outDegree =
      ((g.edges.filter (fun e => (Map.getD g.edgeMap e ⟨0, 0⟩).source = n)).card : Int)

/-- Auxiliary well-formedness of a graph state: live ids are bounded by the
allocator counters, live edges join live nodes, and the live-node set agrees
with the node map's domain. All of it holds in every state the mutators can
build and is needed to know that a freshly allocated id is not already live. -/
def IdInvariant (g : Graph) : Prop :=
  (∀ n ∈ g.nodes, n ≤ g.nodeId) ∧
  (∀ e ∈ g.edges, e ≤ g.edgeId) ∧
  (∀ e ∈ g.edges, (Map.getD g.edgeMap e ⟨0, 0⟩).source ∈ g.nodes ∧
                  (Map.getD g.edgeMap e ⟨0, 0⟩).target ∈ g.nodes) ∧
  (∀ n : Int, n ∈ g.nodes ↔ (g.nodeMap n).isSome)

/-- States reachable from a fresh graph using only `addNode()` and
`addEdge(source, target)` (the calls may succeed or fail). -/
inductive AddReachable : Graph → Prop
  | init : AddReachable Graph.init
  | addNode {g : Graph} : AddReachable g → AddReachable (Graph.addNode g).2
  | addEdge {g : Graph} (s t : Int) : AddReachable g → AddReachable (Graph.addEdge g s t).2

/-! ### Preservation of the degree invariant by the two constructors -/

theorem wf_init : degreeInvariant Graph.init ∧ IdInvariant Graph.init := by
  constructor
  · intro n hn
    simp [Graph.init] at hn
  · refine ⟨?_, ?_, ?_, ?_⟩ <;> simp [Graph.init, Map.empty]

theorem wf_addNode (g : Graph) (h : degreeInvariant g ∧ IdInvariant g) :
    degreeInvariant (Graph.addNode g).2 ∧ IdInvariant (Graph.addNode g).2 := by
  have hdeg := h.1
  have hnb := h.2.1
  have heb := h.2.2.1
  have hep := h.2.2.2.1
  have hdom := h.2.2.2.2
  have hfresh : g.nodeId + 1 ∉ g.nodes := fun hc => by have := hnb _ hc; omega
  unfold Graph.addNode Graph.update
  dsimp only
  constructor
  · intro n hn
    rcases Finset.mem_insert.mp hn with h0 | h0
    · subst h0
      have hft : g.edges.filter
          (fun e => (Map.getD g.edgeMap e ⟨0, 0⟩).target = g.nodeId + 1) = ∅ :=
        Finset.filter_eq_empty_iff.mpr (fun e he => by
          have := hnb _ (hep e he).2
          omega)
      have hfs : g.edges.filter
          (fun e => (Map.getD g.edgeMap e ⟨0, 0⟩).source = g.nodeId + 1) = ∅ :=
        Finset.filter_eq_empty_iff.mpr (fun e he => by
          have := hnb _ (hep e he).1
          omega)
      constructor
      · rw [hft]
        simp [Map.set, Map.getD]
      · rw [hfs]
        simp [Map.set, Map.getD]
    · have hne : n ≠ g.nodeId + 1 := fun hc => hfresh (hc ▸ h0)
      have h1 := hdeg n h0
      simp only [Map.getD, Map.set] at h1 ⊢
      rw [if_neg hne]
      exact h1
  · refine ⟨?_, ?_, ?_, ?_⟩
    · intro n hn
      show n ≤ g.nodeId + 1
      rcases Finset.mem_insert.mp hn with h0 | h0
      · omega
      · have := hnb n h0; omega
    · intro e he
      exact heb e he
    · intro e he
      exact ⟨Finset.mem_insert_of_mem (hep e he).1, Finset.mem_insert_of_mem (hep e he).2⟩
    · intro n
      by_cases hn : n = g.nodeId + 1
      · subst hn
        simp [Map.set]
      · simp [Map.set, hn, hdom n]

theorem addEdge_success_fields (g : Graph) (s t : Int)
    (hs : g.isValidNode s = true) (ht : g.isValidNode t = true) :
    (Graph.addEdge g s t).2.nodes = g.nodes ∧
    (Graph.addEdge g s t).2.nodeId = g.nodeId ∧
    (Graph.addEdge g s t).2.edgeId = g.edgeId + 1 ∧
    (Graph.addEdge g s t).2.edges = insert (g.edgeId + 1) g.edges ∧
    (Graph.addEdge g s t).2.edgeMap = Map.set g.edgeMap (g.edgeId + 1) ⟨s, t⟩ := by
  unfold Graph.addEdge Graph.update
  simp [hs, ht]

theorem addEdge_success_nodeMap_other (g : Graph) (s t k : Int)
    (hs : g.isValidNode s = true) (ht : g.isValidNode t = true)
    (hks : k ≠ s) (hkt : k ≠ t) :
    (Graph.addEdge g s t).2.nodeMap k = g.nodeMap k := by
  unfold Graph.addEdge Graph.update
  simp [hs, ht, Map.set, hks, hkt]

theorem addEdge_success_degrees (g : Graph) (s t : Int)
    (hs : g.isValidNode s = true) (ht : g.isValidNode t = true) :
    (Map.getD (Graph.addEdge g s t).2.nodeMap s {}).outDegree
      = (Map.getD g.nodeMap s {}).outDegree + 1 ∧
    (Map.getD (Graph.addEdge g s t).2.nodeMap t {}).inDegree
      = (Map.getD g.nodeMap t {}).inDegree + 1 ∧
    (s ≠ t → (Map.getD (Graph.addEdge g s t).2.nodeMap s {}).inDegree
      = (Map.getD g.nodeMap s {}).inDegree) ∧
    (s ≠ t → (Map.getD (Graph.addEdge g s t).2.nodeMap t {}).outDegree
      = (Map.getD g.nodeMap t {}).outDegree) := by
  unfold Graph.addEdge Graph.update
  by_cases hst : s = t
  · subst hst
    simp [hs, Map.set, Map.getD]
  · refine ⟨?_, ?_, fun _ => ?_, fun _ => ?_⟩ <;>
      simp [hs, ht, Map.set, Map.getD, hst, Ne.symm hst]

theorem addEdge_success_nodeMap_isSome (g : Graph) (s t k : Int)
    (hs : g.isValidNode s = true) (ht : g.isValidNode t = true) :
    (((Graph.addEdge g s t).2.nodeMap) k).isSome = (g.nodeMap k).isSome := by
  unfold Graph.isValidNode Map.containsKey at hs ht
  unfold Graph.addEdge Graph.update Graph.isValidNode Map.containsKey
  by_cases h1 : k = s
  · subst h1; simp [hs, ht, Map.set, Map.getD]
  · by_cases h2 : k = t
    · subst h2; simp [hs, ht, Map.set, Map.getD, h1]
    · simp [hs, ht, Map.set, Map.getD, h1, h2]

theorem card_filter_set_insert (g : Graph) (s t n : Int) (p : Edge → Int)
    (heb : ∀ e ∈ g.edges, e ≤ g.edgeId) :
    ((insert (g.edgeId + 1) g.edges).filter
        (fun e => p (Map.getD (Map.set g.edgeMap (g.edgeId + 1) ⟨s, t⟩) e ⟨0, 0⟩) = n)).card
      = (g.edges.filter (fun e => p (Map.getD g.edgeMap e ⟨0, 0⟩) = n)).card
        + (if p ⟨s, t⟩ = n then 1 else 0) := by
  have hfresh : g.edgeId + 1 ∉ g.edges := fun hc => by have := heb _ hc; omega
  have hval : Map.getD (Map.set g.edgeMap (g.edgeId + 1) ⟨s, t⟩) (g.edgeId + 1) ⟨0, 0⟩
      = ⟨s, t⟩ := by simp [Map.set, Map.getD]
  have hcong : g.edges.filter
        (fun e => p (Map.getD (Map.set g.edgeMap (g.edgeId + 1) ⟨s, t⟩) e ⟨0, 0⟩) = n)
      = g.edges.filter (fun e => p (Map.getD g.edgeMap e ⟨0, 0⟩) = n) :=
    Finset.filter_congr (fun e he => by
      have hne : e ≠ g.edgeId + 1 := fun hc => hfresh (hc ▸ he)
      simp [Map.set, Map.getD, hne])
  rw [Finset.filter_insert, hval]
  split_ifs with hc
  · rw [Finset.card_insert_of_not_mem
      (fun hc2 => hfresh (Finset.mem_filter.mp hc2).1), hcong]
  · rw [hcong]
    omega

theorem card_filter_set_insert_eq (g : Graph) (s t n : Int) (p : Edge → Int)
    (heb : ∀ e ∈ g.edges, e ≤ g.edgeId) (hpn : p ⟨s, t⟩ = n) :
    ((insert (g.edgeId + 1) g.edges).filter
        (fun e => p (Map.getD (Map.set g.edgeMap (g.edgeId + 1) ⟨s, t⟩) e ⟨0, 0⟩) = n)).card
      = (g.edges.filter (fun e => p (Map.getD g.edgeMap e ⟨0, 0⟩) = n)).card + 1 := by
  rw [card_filter_set_insert g s t n p heb, if_pos hpn]

theorem card_filter_set_insert_ne (g : Graph) (s t n : Int) (p : Edge → Int)
    (heb : ∀ e ∈ g.edges, e ≤ g.edgeId) (hpn : ¬p ⟨s, t⟩ = n) :
    ((insert (g.edgeId + 1) g.edges).filter
        (fun e => p (Map.getD (Map.set g.edgeMap (g.edgeId + 1) ⟨s, t⟩) e ⟨0, 0⟩) = n)).card
      = (g.edges.filter (fun e => p (Map.getD g.edgeMap e ⟨0, 0⟩) = n)).card := by
  rw [card_filter_set_insert g s t n p heb, if_neg hpn]
  omega

theorem wf_addEdge (g : Graph) (s t : Int) (h : degreeInvariant g ∧ IdInvariant g) :
    degreeInvariant (Graph.addEdge g s t).2 ∧ IdInvariant (Graph.addEdge g s t).2 := by
  have hdeg := h.1
  have hnb := h.2.1
  have heb := h.2.2.1
  have hep := h.2.2.2.1
  have hdom := h.2.2.2.2
  by_cases hv : (!g.isValidNode s || !g.isValidNode t) = true
  · unfold Graph.addEdge
    rw [if_pos hv]
    exact h
  · have hes : g.isValidNode s = true := by
      cases hxs : g.isValidNode s
      · simp [hxs] at hv
      · rfl
    have het : g.isValidNode t = true := by
      cases hxt : g.isValidNode t
      · simp [hxt] at hv
      · rfl
    obtain ⟨hfn, hfni, hfei, hfe, hfm⟩ := addEdge_success_fields g s t hes het
    obtain ⟨hds, hdt, hdsi, hdto⟩ := addEdge_success_degrees g s t hes het
    have hsnode : s ∈ g.nodes := (hdom s).mpr hes
    have htnode : t ∈ g.nodes := (hdom t).mpr het
    constructor
    · intro n hn
      rw [hfn] at hn
      rw [hfe, hfm]
      by_cases hns : s = n
      · by_cases hnt : t = n
        · constructor
          · rw [← hnt, card_filter_set_insert_eq g s t t Edge.target heb rfl, hdt]
            have h1 := (hdeg t htnode).1
            push_cast
            omega
          · rw [← hns, card_filter_set_insert_eq g s t s Edge.source heb rfl, hds]
            have h1 := (hdeg s hsnode).2
            push_cast
            omega
        · constructor
          · rw [← hns,
              card_filter_set_insert_ne g s t s Edge.target heb (fun hc => hnt (hc.trans hns)),
              hdsi (fun hc => hnt (hc.symm.trans hns))]
            exact (hdeg s hsnode).1
          · rw [← hns, card_filter_set_insert_eq g s t s Edge.source heb rfl, hds]
            have h1 := (hdeg s hsnode).2
            push_cast
            omega
      · by_cases hnt : t = n
        · constructor
          · rw [← hnt, card_filter_set_insert_eq g s t t Edge.target heb rfl, hdt]
            have h1 := (hdeg t htnode).1
            push_cast
            omega
          · rw [← hnt,
              card_filter_set_insert_ne g s t t Edge.source heb (fun hc => hns (hc.trans hnt)),
              hdto (fun hc => hns (hc.trans hnt))]
            exact (hdeg t htnode).2
        · have hrec := addEdge_success_nodeMap_other g s t n hes het
            (fun hc => hns hc.symm) (fun hc => hnt hc.symm)
          constructor
          · rw [card_filter_set_insert_ne g s t n Edge.target heb hnt]
            have h1 := (hdeg n hn).1
            unfold Map.getD at h1 ⊢
            rw [hrec]
            exact h1
          · rw [card_filter_set_insert_ne g s t n Edge.source heb hns]
            have h1 := (hdeg n hn).2
            unfold Map.getD at h1 ⊢
            rw [hrec]
            exact h1
    · refine ⟨?_, ?_, ?_, ?_⟩
      · intro n hn
        rw [hfn] at hn
        rw [hfni]
        exact hnb n hn
      · intro e he
        rw [hfe] at he
        rw [hfei]
        rcases Finset.mem_insert.mp he with h0 | h0
        · omega
        · have := heb e h0; omega
      · intro e he
        rw [hfe] at he
        rw [hfm, hfn]
        rcases Finset.mem_insert.mp he with h0 | h0
        · subst h0
          have hval : Map.getD (Map.set g.edgeMap (g.edgeId + 1) ⟨s, t⟩) (g.edgeId + 1) ⟨0, 0⟩
              = ⟨s, t⟩ := by simp [Map.set, Map.getD]
          rw [hval]
          exact ⟨hsnode, htnode⟩
        · have hne2 : e ≠ g.edgeId + 1 := fun hc => by
            have := heb e h0
            omega
          have hval : Map.getD (Map.set g.edgeMap (g.edgeId + 1) ⟨s, t⟩) e ⟨0, 0⟩
              = Map.getD g.edgeMap e ⟨0, 0⟩ := by simp [Map.set, Map.getD, hne2]
          rw [hval]
          exact hep e h0
      · intro n
        rw [hfn, addEdge_success_nodeMap_isSome g s t n hes het]
        exact hdom n

theorem addReachable_invariants {g : Graph} (h : AddReachable g) :
    degreeInvariant g ∧ IdInvariant g := by
  induction h with
  | init => exact wf_init
  | addNode _ ih => exact wf_addNode _ ih
  | addEdge s t _ ih => exact wf_addEdge _ s t ih

/-! ### Claim theorems -/

/-- Helper: a bucket option whose `getD []` has a member is present. -/
theorem isSome_of_mem_getD {o : Option (List Int)} {e : Int}
    (h : e ∈ o.getD []) : o.isSome = true := by
  cases o with
  | none => simp at h
  | some l => rfl

/-- C1: on a graph whose single live node id is exactly 0 (the contiguous
range `0..getNodeCount()-1`), `toBoost()` is claimed to add one external
vertex per index, yielding `getNodeCount() = 1` vertices. The code's vertex
loop guard is `node > getNodeCount()` — inverted — so it adds no vertex at
all: the resulting external graph has 0 vertices, not 1. -/
theorem toBoost_adds_no_vertices :
    (Graph.addNode Graph.init).2.getNodeCount = 1 ∧
    (Graph.addNode Graph.init).2.nodes = {0} ∧
    (Graph.addNode Graph.init).2.getEdgeCount = 0 ∧
    ((Graph.addNode Graph.init).2.toBoost).numVertices = 0 :=
  ⟨by decide, by decide, by decide, by decide⟩

/-- C2 (counterexample): after `addEdge(0,1)` on live nodes 0, 1 and then
`deleteEdge` of that last remaining edge, `hasEdge(0,1)` still returns true —
the claim says it returns false. -/
theorem hasEdge_true_after_deleting_last_edge :
    (Graph.addEdge demoTwoNodes 0 1).1 = 0 ∧
    (Graph.deleteEdge demoOneEdge 0).1 = 0 ∧
    demoDeleted.getEdgeCount = 0 ∧
    (Graph.hasEdge demoDeleted 0 1).1 = true :=
  ⟨by decide, by decide, by decide, by decide⟩

/-- C2 (amended): `hasEdge(source, target)` is true immediately after a
successful `addEdge(source, target)`, and is still true immediately after
`deleteEdge` of an edge from `source` to `target`: `deleteEdge` empties the
adjacency bucket but leaves its key in the adjacency index, and `hasEdge`
tests only key presence. -/
theorem hasEdge_after_addEdge_and_deleteEdge (g : Graph) (s t e : Int)
    (hs : g.isValidNode s = true) (ht : g.isValidNode t = true)
    (he : g.isValidEdge e = true) (hst : Map.getD g.edgeMap e ⟨0, 0⟩ = Edge.mk s t) :
    (Graph.hasEdge (Graph.addEdge g s t).2 s t).1 = true ∧
    (Graph.hasEdge (Graph.deleteEdge g e).2 s t).1 = true := by
  constructor
  · unfold Graph.addEdge Graph.hasEdge Graph.update
    simp [hs, ht, Map.set, Map.getD, Map.containsKey]
  · unfold Graph.deleteEdge Graph.hasEdge Graph.update
    simp only [Map.getD] at hst
    simp [he, hst, Map.set, Map.getD, Map.containsKey]

/-- Witness for the amended C2 at the concrete one-edge state. -/
theorem hasEdge_after_addEdge_and_deleteEdge_witness :
    (demoOneEdge.isValidNode 0 = true ∧ demoOneEdge.isValidNode 1 = true ∧
     demoOneEdge.isValidEdge 0 = true ∧
     Map.getD demoOneEdge.edgeMap 0 ⟨0, 0⟩ = Edge.mk 0 1) ∧
    ((Graph.hasEdge (Graph.addEdge demoOneEdge 0 1).2 0 1).1 = true ∧
     (Graph.hasEdge (Graph.deleteEdge demoOneEdge 0).2 0 1).1 = true) :=
  ⟨⟨by decide, by decide, by decide, by decide⟩,
   hasEdge_after_addEdge_and_deleteEdge demoOneEdge 0 1 0
     (by decide) (by decide) (by decide) (by decide)⟩

/-- C3 (counterexample): after `addEdge(0,1)` and `deleteEdge` of that edge,
node 0 is still live and stores out-degree 1, but no live edge has source 0:
`deleteEdge` never decrements the degree counters. -/
theorem degree_counter_stale_after_deleteEdge :
    0 ∈ demoDeleted.nodes ∧
    (Map.getD demoDeleted.nodeMap 0 {}).outDegree = 1 ∧
    (demoDeleted.edges.filter
      (fun e => (Map.getD demoDeleted.edgeMap e ⟨0, 0⟩).source = 0)).card = 0 :=
  ⟨by decide, by decide, by decide⟩

/-- C3 (amended): the degree counters of every live node equal the counts of
live edges targeting/sourced at it in every state reachable using only
`addNode` and `addEdge`; `deleteEdge`, `deleteNode` and `clearEdges` never
touch the counters and therefore do not preserve the invariant. -/
theorem degree_invariant_add_only (g : Graph) (h : AddReachable g) :
    degreeInvariant g :=
  (addReachable_invariants h).1

/-- Witness for the amended C3 at the concrete one-edge state built by two
`addNode` calls and one `addEdge` call. -/
theorem degree_invariant_add_only_witness :
    AddReachable demoOneEdge ∧ degreeInvariant demoOneEdge :=
  ⟨AddReachable.addEdge 0 1 (AddReachable.addNode (AddReachable.addNode AddReachable.init)),
   degree_invariant_add_only demoOneEdge
     (AddReachable.addEdge 0 1 (AddReachable.addNode (AddReachable.addNode AddReachable.init)))⟩

/-- C4 (counterexample): on the empty graph, `setComponents` is not
special-cased — it invokes `connected_components` on the zero-vertex adapted
graph (the instrumentation bit of the model records the invocation). -/
theorem setComponents_invokes_algorithm_on_empty :
    Graph.init.getNodeCount = 0 ∧
    (Graph.setComponents (fun _ => []) Graph.init).2 = true :=
  ⟨rfl, rfl⟩

/-- C4 (amended): on the empty graph, `getBetweennessCentrality`,
`getShortestPath` and `getSpanningTree` each return a zero-length result
without invoking the underlying algorithm; `setComponents` has no such
special case and does invoke `connected_components` on the zero-vertex
adapted graph, but its writeback loop over the empty node set leaves the
graph unchanged, so it completes without error. -/
theorem analytics_on_empty_graph (brandes : BoostGraph → List Rat)
    (dijkstra : BoostGraph → Int → List Int) (prim : BoostGraph → List Int)
    (cc : BoostGraph → List Int) (prev : Int) (g : Graph)
    (h : g.getNodeCount = 0) :
    Graph.getBetweennessCentrality brandes g = ([], false) ∧
    Graph.getShortestPath dijkstra prev g = ([], false) ∧
    Graph.getSpanningTree prim g = ([], false) ∧
    Graph.setComponents cc g = (g, true) := by
  have hn : g.nodes = ∅ := Finset.card_eq_zero.mp h
  refine ⟨?_, ?_, ?_, ?_⟩
  · unfold Graph.getBetweennessCentrality
    simp [h]
  · unfold Graph.getShortestPath
    simp [h]
  · unfold Graph.getSpanningTree
    simp [h]
  · obtain ⟨ver, ni, ei, ns, nm, es, em⟩ := g
    have hns : ns = ∅ := hn
    subst hns
    unfold Graph.setComponents
    simp

/-- Witness for C4's amended statement on the literal empty graph. -/
theorem analytics_on_empty_graph_witness :
    Graph.init.getNodeCount = 0 ∧
    (Graph.getBetweennessCentrality (fun _ => []) Graph.init = ([], false) ∧
     Graph.getShortestPath (fun _ _ => []) 0 Graph.init = ([], false) ∧
     Graph.getSpanningTree (fun _ => []) Graph.init = ([], false) ∧
     Graph.setComponents (fun _ => []) Graph.init = (Graph.init, true)) :=
  ⟨rfl, analytics_on_empty_graph (fun _ => []) (fun _ _ => []) (fun _ => [])
     (fun _ => []) 0 Graph.init rfl⟩

/-- C5: `deleteNode(n)` on a live node removes exactly the incident edges:
the edge count drops by the number of live edges with source or target `n`,
and every non-incident live edge is still live afterwards. -/
theorem deleteNode_removes_exactly_incident (g : Graph) (n : Int)
    (h : g.isValidNode n = true) :
    (Graph.deleteNode g n).2.getEdgeCount =
      g.getEdgeCount - (g.edges.filter (fun e =>
        (Map.getD g.edgeMap e ⟨0, 0⟩).source = n ∨
        (Map.getD g.edgeMap e ⟨0, 0⟩).target = n)).card ∧
    ∀ e ∈ g.edges,
      ¬((Map.getD g.edgeMap e ⟨0, 0⟩).source = n ∨
        (Map.getD g.edgeMap e ⟨0, 0⟩).target = n) →
      e ∈ (Graph.deleteNode g n).2.edges := by
  unfold Graph.deleteNode Graph.getEdgeCount Graph.update
  simp only [h, Bool.not_true, Bool.false_eq_true, if_false]
  constructor
  · exact Finset.card_sdiff (Finset.filter_subset _ _)
  · intro e he hni
    exact Finset.mem_sdiff.mpr ⟨he, fun hk => hni (Finset.mem_filter.mp hk).2⟩

/-- Witness for C5 at the one-edge state, deleting node 0. -/
theorem deleteNode_removes_exactly_incident_witness :
    demoOneEdge.isValidNode 0 = true ∧
    ((Graph.deleteNode demoOneEdge 0).2.getEdgeCount =
      demoOneEdge.getEdgeCount - (demoOneEdge.edges.filter (fun e =>
        (Map.getD demoOneEdge.edgeMap e ⟨0, 0⟩).source = 0 ∨
        (Map.getD demoOneEdge.edgeMap e ⟨0, 0⟩).target = 0)).card ∧
     ∀ e ∈ demoOneEdge.edges,
      ¬((Map.getD demoOneEdge.edgeMap e ⟨0, 0⟩).source = 0 ∨
        (Map.getD demoOneEdge.edgeMap e ⟨0, 0⟩).target = 0) →
      e ∈ (Graph.deleteNode demoOneEdge 0).2.edges) :=
  ⟨by decide, deleteNode_removes_exactly_incident demoOneEdge 0 (by decide)⟩

/-- C6: `clear()` resets the node count, the edge count and the version to
their fresh-graph values, and the next `addNode()` returns the same id as the
first `addNode()` on a freshly constructed graph. -/
theorem clear_resets_state (g : Graph) :
    (Graph.clear g).getNodeCount = 0 ∧
    (Graph.clear g).getEdgeCount = 0 ∧
    (Graph.clear g).getVersion = Graph.init.getVersion ∧
    (Graph.addNode (Graph.clear g)).1 = (Graph.addNode Graph.init).1 :=
  ⟨rfl, rfl, rfl, rfl⟩

/-- C7: `addEdge` with an endpoint that is not live (not a key of the node
map, which is exactly the `isValidNode` test the code performs) returns the
failure sentinel -1 and returns the state completely unchanged — edge store,
node store, degree counters, adjacency index, id counters and version. -/
theorem addEdge_invalid_endpoint_rejected (g : Graph) (s t : Int)
    (h : g.isValidNode s = false ∨ g.isValidNode t = false) :
    Graph.addEdge g s t = (-1, g) := by
  unfold Graph.addEdge
  rcases h with h | h <;> simp [h]

/-- Witness for C7 on the empty graph, where node 0 is not live. -/
theorem addEdge_invalid_endpoint_rejected_witness :
    (Graph.init.isValidNode 0 = false ∨ Graph.init.isValidNode 1 = false) ∧
    Graph.addEdge Graph.init 0 1 = (-1, Graph.init) :=
  ⟨Or.inl rfl, addEdge_invalid_endpoint_rejected Graph.init 0 1 (Or.inl rfl)⟩

/-- C8: after `deleteNode(n)`, a surviving node `m` that had an edge `e`
towards `n` still lists `e` in its adjacency bucket for `n`: `getEdges(m, n)`
still contains `e` and `hasEdge(m, n)` is still true, although `e` is no
longer in the edge store. -/
theorem deleteNode_keeps_stale_adjacency (g : Graph) (m n e : Int)
    (hmn : m ≠ n) (hm : g.isValidNode m = true) (hn : g.isValidNode n = true)
    (he : e ∈ g.edges) (hst : Map.getD g.edgeMap e ⟨0, 0⟩ = Edge.mk m n)
    (hb : e ∈ Map.getD (Map.getD g.nodeMap m {}).adjacent n []) :
    e ∈ (Graph.getEdges (Graph.deleteNode g n).2 m n).1 ∧
    (Graph.hasEdge (Graph.deleteNode g n).2 m n).1 = true ∧
    e ∉ (Graph.deleteNode g n).2.edges := by
  unfold Graph.deleteNode Graph.getEdges Graph.hasEdge Graph.update
  simp only [hn, Bool.not_true, Bool.false_eq_true, if_false]
  refine ⟨?_, ?_, ?_⟩
  · simp only [Map.getD] at hb
    simpa [Map.eraseKey, Map.getD, hmn] using hb
  · have h1 : (((g.nodeMap m).getD ({} : Node)).adjacent n).isSome = true :=
      isSome_of_mem_getD (by simpa [Map.getD] using hb)
    simp [Map.eraseKey, Map.getD, Map.containsKey, hmn, h1]
  · intro hmem
    rw [Finset.mem_sdiff] at hmem
    exact hmem.2 (Finset.mem_filter.mpr ⟨he, Or.inr (by rw [hst])⟩)

/-- Witness for C8: delete node 1 out of `demoOneEdge`; node 0's bucket for 1
still holds the dead edge id 0. -/
theorem deleteNode_keeps_stale_adjacency_witness :
    ((0 : Int) ≠ 1 ∧ demoOneEdge.isValidNode 0 = true ∧
     demoOneEdge.isValidNode 1 = true ∧ 0 ∈ demoOneEdge.edges ∧
     Map.getD demoOneEdge.edgeMap 0 ⟨0, 0⟩ = Edge.mk 0 1 ∧
     0 ∈ Map.getD (Map.getD demoOneEdge.nodeMap 0 {}).adjacent 1 []) ∧
    (0 ∈ (Graph.getEdges (Graph.deleteNode demoOneEdge 1).2 0 1).1 ∧
     (Graph.hasEdge (Graph.deleteNode demoOneEdge 1).2 0 1).1 = true ∧
     0 ∉ (Graph.deleteNode demoOneEdge 1).2.edges) :=
  ⟨⟨by decide, by decide, by decide, by decide, by decide, by decide⟩,
   deleteNode_keeps_stale_adjacency demoOneEdge 0 1 0
     (by decide) (by decide) (by decide) (by decide) (by decide) (by decide)⟩

/-- C9: `getEdges(s, t)` is not a pure read. For live nodes `s`, `t` with no
edge from `s` to `t` and no bucket for `t` in `s`'s adjacency index, the call
returns the empty list but default-inserts an empty bucket keyed by `t`, so
`hasEdge(s, t)` returns true afterwards although no such edge exists. -/
theorem getEdges_inserts_empty_bucket (g : Graph) (s t : Int)
    (hs : g.isValidNode s = true) (ht : g.isValidNode t = true)
    (hnb : (Map.getD g.nodeMap s {}).adjacent t = none)
    (hne : ∀ e ∈ g.edges, Map.getD g.edgeMap e ⟨0, 0⟩ ≠ Edge.mk s t) :
    (Graph.getEdges g s t).1 = [] ∧
    (Graph.hasEdge g s t).1 = false ∧
    (Graph.hasEdge (Graph.getEdges g s t).2 s t).1 = true := by
  unfold Graph.getEdges Graph.hasEdge
  simp only [Map.getD] at hnb
  refine ⟨?_, ?_, ?_⟩
  · simp [Map.getD, hnb]
  · simp [Map.containsKey, Map.getD, hnb]
  · simp [Map.set, Map.getD, Map.containsKey]

/-- Witness for C9 on the two-node, zero-edge state. -/
theorem getEdges_inserts_empty_bucket_witness :
    (demoTwoNodes.isValidNode 0 = true ∧ demoTwoNodes.isValidNode 1 = true ∧
     (Map.getD demoTwoNodes.nodeMap 0 {}).adjacent 1 = none ∧
     (∀ e ∈ demoTwoNodes.edges, Map.getD demoTwoNodes.edgeMap e ⟨0, 0⟩ ≠ Edge.mk 0 1)) ∧
    ((Graph.getEdges demoTwoNodes 0 1).1 = [] ∧
     (Graph.hasEdge demoTwoNodes 0 1).1 = false ∧
     (Graph.hasEdge (Graph.getEdges demoTwoNodes 0 1).2 0 1).1 = true) :=
  ⟨⟨by decide, by decide, by decide, by decide⟩,
   getEdges_inserts_empty_bucket demoTwoNodes 0 1
     (by decide) (by decide) (by decide) (by decide)⟩

/-- C10: assignment copies the node store, edge store and version from the
source but leaves the destination's next-id counters untouched, so `addNode()`
on the assigned-to graph can return an id that is already live in the copied
node store — demonstrated by assigning a two-node graph over a fresh one. -/
theorem assign_keeps_destination_id_counters :
    (∀ dst g : Graph,
      (Graph.assign dst g).nodeId = dst.nodeId ∧
      (Graph.assign dst g).edgeId = dst.edgeId ∧
      (Graph.assign dst g).version = g.version ∧
      (Graph.assign dst g).nodes = g.nodes ∧
      (Graph.assign dst g).nodeMap = g.nodeMap ∧
      (Graph.assign dst g).edges = g.edges ∧
      (Graph.assign dst g).edgeMap = g.edgeMap) ∧
    (Graph.addNode (Graph.assign Graph.init demoTwoNodes)).1 ∈
      (Graph.assign Graph.init demoTwoNodes).nodes :=
  ⟨fun dst g => ⟨rfl, rfl, rfl, rfl, rfl, rfl, rfl⟩, by decide⟩

end Mycelia
